import Mathlib

/-!
Verification development for the CIP weekly digest pipeline core:

* the change detector (`single_page_monitor.py`),
* the content-addressed storage manager (`Azure Functions/v2_storage_manager.py`),
* the image cache lookups (`Azure Functions/v2_image_manager.py`),
* the ordered content parser (`Azure Functions/confluence_content_extractor.py`),
* the whole-page chunking strategy (`Azure Functions/azure_search_indexer.py`).

Modelling conventions:

* Python `str` is modelled as Lean `String` (logically a list of characters,
  matching Python's code-point indexing for slicing, `len`, iteration).
  Python string primitives used by the source (`strip`, `split`, `replace`,
  slicing, the `in` operator, `join`) are embedded below as structurally
  recursive functions over `List Char` so that all definitions evaluate
  inside the kernel. `\w`/`\s` character classes in the sanitizer's regexes
  are modelled over their ASCII meaning.
* Python `bytes` is modelled as `List Nat`.
* Python dicts with a fixed field set are modelled as structures; blob
  metadata dicts as association lists `List (String × String)`.
* The blob store is modelled as an association list from blob path to blob;
  `upload_blob(..., overwrite=True)` replaces the entry for a path.
* Cryptographic hashes (`hashlib.sha256`, `hashlib.md5`) are kept abstract:
  a function that hashes takes the digest function as an explicit argument
  and theorems phrase their hypotheses in terms of equality / inequality of
  digest strings.
* Python `set` iteration order is unspecified; the embedding fixes
  first-occurrence order (`eraseDups`).  The proved claims do not depend on
  that choice.
-/

/-! ## Python string primitives -/

/-- Python whitespace characters recognised by `str.strip()` / `\s` (ASCII). -/
def isPySpace (c : Char) : Bool :=
  c = ' ' || c = '\t' || c = '\n' || c = '\r' || c = '\x0b' || c = '\x0c'

/-- Python `str.strip()`: drop leading and trailing whitespace. -/
def pyStrip (s : String) : String :=
  ⟨((s.data.dropWhile isPySpace).reverse.dropWhile isPySpace).reverse⟩

/-- Python slicing `s[:n]` (by code points). -/
def pyTake (s : String) (n : Nat) : String :=
  ⟨s.data.take n⟩

/-- Python slicing `s[n:]` (by code points). -/
def pyDrop (s : String) (n : Nat) : String :=
  ⟨s.data.drop n⟩

/-- Substring check on character lists: does `sub` occur contiguously? -/
def containsChars (sub : List Char) : List Char → Bool
  | [] => sub.isEmpty
  | c :: rest => sub.isPrefixOf (c :: rest) || containsChars sub rest

/-- Python `sub in s`. -/
def containsStr (s sub : String) : Bool :=
  containsChars sub.data s.data

/-- Python `sep.join(parts)`. -/
def pyJoin (sep : String) : List String → String
  | [] => ""
  | [x] => x
  | x :: xs => x ++ sep ++ pyJoin sep xs

/-- Fuel-driven core of Python `str.replace` (replace every non-overlapping
occurrence, left to right).  The fuel is initialised to the string length,
which bounds the number of steps; the empty-pattern case (unused by the
source) is not modelled. -/
def pyReplaceCore (pat rep : List Char) : Nat → List Char → List Char
  | 0, l => l
  | _ + 1, [] => []
  | fuel + 1, c :: rest =>
    if pat ≠ [] ∧ pat.isPrefixOf (c :: rest) then
      rep ++ pyReplaceCore pat rep fuel (List.drop (pat.length - 1) rest)
    else
      c :: pyReplaceCore pat rep fuel rest

/-- Python `s.replace(pat, rep)`. -/
def pyReplace (s pat rep : String) : String :=
  ⟨pyReplaceCore pat.data rep.data s.data.length s.data⟩

/-- Fuel-driven core of Python `str.split(sep)` with a non-empty separator. -/
def pySplitCore (sep : List Char) : Nat → List Char → List Char → List (List Char)
  | 0, acc, l => [acc ++ l]
  | _ + 1, acc, [] => [acc]
  | fuel + 1, acc, c :: rest =>
    if sep.isPrefixOf (c :: rest) then
      acc :: pySplitCore sep fuel [] (List.drop (sep.length - 1) rest)
    else
      pySplitCore sep fuel (acc ++ [c]) rest

/-- Python `s.split(sep)` (non-empty separator). -/
def pySplit (s sep : String) : List String :=
  (pySplitCore sep.data (s.data.length + 1) [] s.data).map (fun l => ⟨l⟩)

/-- Python `set(xs)` viewed as a list: deduplicate, keeping first occurrences. -/
def pySet (xs : List String) : List String :=
  xs.eraseDups

/-- Python set difference `set(a) - set(b)` where `a` is already
deduplicated: keep the elements of `a` not occurring in `b`. -/
def pySetDiff (a b : List String) : List String :=
  a.filter (fun x => !(b.contains x))

/-! ## Change detector (`single_page_monitor.py`)

`extract_raw_text` (network + HTML normalisation + SHA-256) is an external
collaborator; its result dict is the `RawData` structure below, carrying
whatever digest string the hash produced.  `load_previous_version` /
`save_current_version` read and write the single state blob
`page_{page_id}_raw_version.json`; the store is modelled as
`Option Snapshot` (the additional write-once history copy saved under
`page_{page_id}_history/…` is not involved in any claim and is omitted).
`detect_changes_optimized` is embedded as a pure function from the current
extraction result and the stored snapshot to the returned result dict and
the new store contents. -/

/-- Result dict of `extract_raw_text` (plus the page id it was called on). -/
structure RawData where
  raw_text : String
  content_hash : String
  extracted_at : String
  page_id : String
  confluence_version : Nat
deriving DecidableEq

/-- The version-state dict persisted by `save_current_version`. -/
structure Snapshot where
  page_id : String
  version_number : Nat
  content_hash : String
  raw_text : String
  extracted_at : String
  confluence_version : Nat
deriving DecidableEq

/-- The result dict returned by `detect_changes_optimized`.  The
`current_data` key is present on the first-run and changed paths but absent
from the no-change early return, hence an `Option`. -/
structure DetectResult where
  has_changes : Bool
  version_number : Nat
  previous_version : Option Nat
  change_summary : String
  needs_reprocessing : Bool
  current_data : Option RawData
deriving DecidableEq

/-- The version data assembled by `save_current_version(page_id, raw_data,
version_number)`. -/
def mkSnapshot (page_id : String) (cur : RawData) (version_number : Nat) : Snapshot :=
  { page_id := page_id
    version_number := version_number
    content_hash := cur.content_hash
    raw_text := cur.raw_text
    extracted_at := cur.extracted_at
    confluence_version := cur.confluence_version }

/-- The `changes` categorisation dict built in the changed branch of
`detect_changes_optimized`. -/
structure Changes where
  images_added : List String
  images_removed : List String
  text_added : List String
  text_removed : List String
  headings_added : List String
  headings_removed : List String
deriving DecidableEq

/-- The per-line classification loop (`for line in added_lines: …`),
returning `(images, headings, texts)` in iteration order. -/
def classifyLines (lines : List String) : List String × List String × List String :=
  lines.foldl
    (fun acc line =>
      let l := pyStrip line
      if containsStr l "[IMAGE_EXTERNAL:" || containsStr l "[IMAGE_ATTACHMENT:" ||
          containsStr l "[IMAGE:" then
        (acc.1 ++ [l], acc.2.1, acc.2.2)
      else if containsStr l "[HEADING]" then
        (acc.1, acc.2.1 ++ [pyStrip (pyReplace l "[HEADING]" "")], acc.2.2)
      else if l ≠ "" ∧ l.length > 10 then
        (acc.1, acc.2.1, acc.2.2 ++ [pyTake l 100])
      else acc)
    ([], [], [])

/-- The `changes` dict assembled from the added and removed line sets. -/
def categorizeChanges (added_lines removed_lines : List String) : Changes :=
  let a := classifyLines added_lines
  let r := classifyLines removed_lines
  { images_added := a.1
    images_removed := r.1
    text_added := a.2.2
    text_removed := r.2.2
    headings_added := a.2.1
    headings_removed := r.2.1 }

/-- The `summary_parts` build-up for added images (`NEW IMAGE ADDED: …`). -/
def imageAddedParts (imgs : List String) : List String :=
  imgs.foldl
    (fun acc img =>
      if containsStr img "IMAGE_EXTERNAL:" then
        acc ++ ["NEW IMAGE ADDED: " ++ pyStrip (pyReplace (pyReplace img "[IMAGE_EXTERNAL:" "") "]" "")]
      else if containsStr img "IMAGE_ATTACHMENT:" then
        acc ++ ["NEW IMAGE ADDED: " ++ pyStrip (pyReplace (pyReplace img "[IMAGE_ATTACHMENT:" "") "]" "")]
      else acc)
    []

/-- The full `summary_parts` list, all categories in source order with the
source's per-category caps. -/
def buildSummaryParts (ch : Changes) : List String :=
  imageAddedParts ch.images_added
    ++ ch.images_removed.map (fun img => "IMAGE REMOVED: " ++ img)
    ++ (ch.headings_added.take 3).map (fun h => "NEW SECTION: " ++ h)
    ++ (ch.headings_removed.take 3).map (fun h => "SECTION REMOVED: " ++ h)
    ++ (ch.text_added.take 3).map (fun t => "NEW TEXT: \"" ++ pyTake t 80 ++ "...\"")
    ++ (ch.text_removed.take 2).map (fun t => "TEXT REMOVED: \"" ++ pyTake t 60 ++ "...\"")

/-- The change summary assembled from the added and removed line sets:
summary parts joined with `" | "`, with the generic fallback counting the
set sizes. -/
def summaryFromDiff (added_lines removed_lines : List String) : String :=
  let parts := buildSummaryParts (categorizeChanges added_lines removed_lines)
  if parts ≠ [] then pyJoin " | " parts
  else "Minor content changes: " ++ toString added_lines.length ++ " additions, " ++
    toString removed_lines.length ++ " removals"

/-- The change summary computed in the changed branch from the previous and
current normalized texts: split both on newlines, take the line-set
differences, categorise and summarise. -/
def changedSummary (prevText curText : String) : String :=
  summaryFromDiff
    (pySetDiff (pySet (pySplit curText "\n")) (pySplit prevText "\n"))
    (pySetDiff (pySet (pySplit prevText "\n")) (pySplit curText "\n"))

/-- `detect_changes_optimized`, as a function of the current extraction
result and the stored snapshot.  Returns the result dict and the new store
contents.  The no-change branch returns early, before the save step. -/
def detect_changes_optimized (page_id : String) (current_data : RawData)
    (previous_version : Option Snapshot) : DetectResult × Option Snapshot :=
  match previous_version with
  | none =>
    ({ has_changes := true
       version_number := 1
       previous_version := none
       change_summary := "Initial extraction"
       needs_reprocessing := true
       current_data := some current_data },
     some (mkSnapshot page_id current_data 1))
  | some p =>
    if current_data.content_hash = p.content_hash then
      ({ has_changes := false
         version_number := p.version_number
         previous_version := some p.version_number
         change_summary := "No changes detected"
         needs_reprocessing := false
         current_data := none },
       some p)
    else
      ({ has_changes := true
         version_number := p.version_number + 1
         previous_version := some p.version_number
         change_summary := changedSummary p.raw_text current_data.raw_text
         needs_reprocessing := true
         current_data := some current_data },
       some (mkSnapshot page_id current_data (p.version_number + 1)))

/-- A sequence of detector runs threaded through the snapshot store. -/
def runAll (page_id : String) (st : Option Snapshot) (l : List RawData) : Option Snapshot :=
  l.foldl (fun s cur => (detect_changes_optimized page_id cur s).2) st

/-- Version number recorded in the store (`0` when no snapshot exists). -/
def storeVersion : Option Snapshot → Nat
  | none => 0
  | some p => p.version_number

/-- Does every run of the sequence observe a content hash different from the
hash stored at the time of that run (first runs observe no stored hash and
count as a change)? -/
def allChangedB (page_id : String) : Option Snapshot → List RawData → Bool
  | _, [] => true
  | st, cur :: rest =>
    (match st with
     | none => true
     | some p => decide (cur.content_hash ≠ p.content_hash)) &&
    allChangedB page_id (detect_changes_optimized page_id cur st).2 rest

/-! ## Content-addressed blob storage (`Azure Functions/v2_storage_manager.py`)

The Azure blob container is modelled as an association list from blob path
to blob, a blob being its content bytes plus its metadata dict.
`upload_blob(..., overwrite=True)` replaces the entry at a path.  MD5
digests are abstract: every operation that hashes takes the digest function
`md5 : List Nat → String` as an argument.  `upload_if_changed` over a local
file and `upload_content_if_changed` over in-memory bytes share their
hash-compare-upload logic; the embedding takes the bytes directly (reading
the local file is I/O).  Content types and the try/except around property
reads (whose failure merely routes to the upload branch) do not affect the
claims and are not modelled here; read failures are modelled where they are
the point, in the cache-lookup section below. -/

/-- A stored blob: content bytes plus the metadata dict recorded at upload. -/
structure Blob where
  content : List Nat
  metadata : List (String × String)
deriving DecidableEq

/-- The blob container: a map from blob path to blob. -/
abbrev BlobStore := List (String × Blob)

/-- Look up the blob stored at a path. -/
def storeGet (st : BlobStore) (path : String) : Option Blob :=
  (st.find? (fun kv => kv.1 == path)).map (fun kv => kv.2)

/-- `upload_blob(..., overwrite=True)`: replace any blob at the path. -/
def storePut (st : BlobStore) (path : String) (b : Blob) : BlobStore :=
  st.filter (fun kv => !(kv.1 == path)) ++ [(path, b)]

/-- Python `metadata.get(key, '')` on a metadata dict. -/
def metaGet (m : List (String × String)) (key : String) : String :=
  ((m.find? (fun kv => kv.1 == key)).map (fun kv => kv.2)).getD ""

/-- `blob_client.url`; scheme and storage account are fixed, so container
plus path identify the blob. -/
def blobUrl (container path : String) : String :=
  container ++ "/" ++ path

/-- Regex class `\w` over ASCII: letters, digits, underscore. -/
def isWordChar (c : Char) : Bool :=
  c.isAlpha || c.isDigit || c = '_'

/-- Collapse every run of hyphens/whitespace (`[-\s]+`) to one underscore;
the flag records whether the previous character belonged to such a run. -/
def collapseRuns : List Char → Bool → List Char
  | [], _ => []
  | c :: rest, prevRun =>
    if c = '-' || isPySpace c then
      if prevRun then collapseRuns rest true else '_' :: collapseRuns rest true
    else c :: collapseRuns rest false

/-- Python `str.strip(ch)`: drop the given character from both ends. -/
def stripCharEnds (ch : Char) (l : List Char) : List Char :=
  ((l.dropWhile (fun c => c = ch)).reverse.dropWhile (fun c => c = ch)).reverse

/-- `V2StorageManager.sanitize_name`: drop characters outside `[\w\s-]`,
collapse `[-\s]+` runs to `_`, strip `_` from the ends, cap at 50. -/
def sanitize_name (text : String) : String :=
  ⟨(stripCharEnds '_'
      (collapseRuns (text.data.filter (fun c => isWordChar c || isPySpace c || c = '-')) false)).take 50⟩

/-- Position of the last `.` in a name, if any. -/
def pyLastDot (l : List Char) : Option Nat :=
  ((List.range l.length).filter (fun i => l.getD i ' ' = '.')).getLast?

/-- `pathlib.Path(name).suffix` for a plain file name: characters from the
last dot on, when that dot is neither first nor last; otherwise empty. -/
def pySuffix (name : String) : String :=
  match pyLastDot name.data with
  | some i => if 0 < i ∧ i < name.data.length - 1 then ⟨name.data.drop i⟩ else ""
  | none => ""

/-- `pathlib.Path(name).stem` for a plain file name: the name minus its
suffix. -/
def pyStem (name : String) : String :=
  match pyLastDot name.data with
  | some i => if 0 < i ∧ i < name.data.length - 1 then ⟨name.data.take i⟩ else name
  | none => name

/-- `get_page_base_path`: `{space_key}/{sanitized title}_{page_id}`. -/
def get_page_base_path (space_key page_id page_title : String) : String :=
  space_key ++ "/" ++ sanitize_name page_title ++ "_" ++ page_id

/-- The deduplicated image file name `{hash[:8]}_{safe_name}{ext}` built by
`upload_image_deduplicated`. -/
def dedup_storage_key (image_hash original_filename : String) : String :=
  pyTake image_hash 8 ++ "_" ++ sanitize_name (pyStem original_filename) ++
    pySuffix original_filename

/-- The full blob path of a deduplicated image. -/
def image_blob_path (space_key page_id page_title image_hash original_filename : String) :
    String :=
  get_page_base_path space_key page_id page_title ++ "/images/" ++
    dedup_storage_key image_hash original_filename

/-- Result tuple of `upload_image_deduplicated`, plus the store it leaves
behind. -/
structure ImageUploadResult where
  uploaded : Bool
  blob_url : String
  image_hash : String
  store : BlobStore
deriving DecidableEq

/-- `upload_image_deduplicated`: hash the (already downloaded) image bytes,
derive the content-addressed path, skip the upload when a blob already
exists there, otherwise upload with `image_hash`/`original_filename`
metadata. -/
def upload_image_deduplicated (md5 : List Nat → String) (st : BlobStore)
    (space_key page_id page_title : String) (image_content : List Nat)
    (original_filename : String) : ImageUploadResult :=
  let image_hash := md5 image_content
  let blob_path := image_blob_path space_key page_id page_title image_hash original_filename
  match storeGet st blob_path with
  | some _ =>
    { uploaded := false
      blob_url := blobUrl "confluence-content" blob_path
      image_hash := image_hash
      store := st }
  | none =>
    { uploaded := true
      blob_url := blobUrl "confluence-content" blob_path
      image_hash := image_hash
      store := storePut st blob_path
        ⟨image_content, [("image_hash", image_hash), ("original_filename", original_filename)]⟩ }

/-- Result tuple of `upload_content_if_changed`, plus the store it leaves
behind. -/
structure ContentUploadResult where
  uploaded : Bool
  blob_url : String
  reason : String
  store : BlobStore
deriving DecidableEq

/-- `upload_content_if_changed`: hash the bytes; if a blob exists at the
path whose recorded `content_md5` metadata equals the hash, skip; otherwise
upload, recording the hash as metadata. -/
def upload_content_if_changed (md5 : List Nat → String) (st : BlobStore)
    (container : String) (content : List Nat) (blob_path : String) : ContentUploadResult :=
  let content_hash := md5 content
  match storeGet st blob_path with
  | some b =>
    if metaGet b.metadata "content_md5" = content_hash then
      { uploaded := false
        blob_url := blobUrl container blob_path
        reason := "SKIPPED (unchanged)"
        store := st }
    else
      { uploaded := true
        blob_url := blobUrl container blob_path
        reason := "UPLOADED"
        store := storePut st blob_path ⟨content, [("content_md5", content_hash)]⟩ }
  | none =>
    { uploaded := true
      blob_url := blobUrl container blob_path
      reason := "UPLOADED"
      store := storePut st blob_path ⟨content, [("content_md5", content_hash)]⟩ }

/-! ## Cache lookups and read-failure semantics
(`v2_storage_manager.get_image_by_hash`, `get_cached_description`;
`v2_image_manager.check_image_in_cache`)

Each lookup wraps its backing-store reads in `try/except` and returns
`None` from the handler, so any read failure is reported as a miss.  The
backing store is modelled as a record of fallible operations
(`Except String α`); an `error` value corresponds to the SDK raising.  JSON
decoding of a downloaded description (`json.loads`, whose failure the same
handler catches) is a further fallible operation of the backend. -/

/-- The fallible blob-store operations used by the cache lookups.
`listBlobs` takes the `name_starts_with` filter and returns blob names. -/
structure CacheBackend where
  existsAt : String → Except String Bool
  downloadAt : String → Except String String
  listBlobs : String → Except String (List String)
  getMetadataAt : String → Except String (List (String × String))
  decodeJson : String → Except String (List (String × String))

/-- `get_image_by_hash`: list blobs under
`{base}/images/{hash[:8]}_`; return the first blob's URL, `None` when the
listing is empty or raises. -/
def get_image_by_hash (be : CacheBackend)
    (space_key page_id page_title image_hash : String) : Option String :=
  match be.listBlobs (get_page_base_path space_key page_id page_title ++ "/images/" ++
      pyTake image_hash 8 ++ "_") with
  | .error _ => none
  | .ok [] => none
  | .ok (b :: _) => some (blobUrl "confluence-content" b)

/-- `get_cached_description`: probe
`{base}/descriptions/{hash}.json`; download and decode it when present;
`None` on absence or on any raised error. -/
def get_cached_description (be : CacheBackend)
    (space_key page_id page_title image_hash : String) :
    Option (List (String × String)) :=
  match be.existsAt (get_page_base_path space_key page_id page_title ++
      "/descriptions/" ++ image_hash ++ ".json") with
  | .error _ => none
  | .ok false => none
  | .ok true =>
    match be.downloadAt (get_page_base_path space_key page_id page_title ++
        "/descriptions/" ++ image_hash ++ ".json") with
    | .error _ => none
    | .ok content =>
      match be.decodeJson content with
      | .error _ => none
      | .ok d => some d

/-- The blob scan of `check_image_in_cache`: fetch each blob's metadata and
return on the first whose recorded `original_filename` and `version_hash`
match; a raised error anywhere propagates to the `except` handler, i.e.
yields `None` for the whole lookup. -/
def checkImageScan (be : CacheBackend) (filename version_hash : String) :
    List String → Option (String × String)
  | [] => none
  | name :: rest =>
    match be.getMetadataAt name with
    | .error _ => none
    | .ok md =>
      if metaGet md "original_filename" = filename ∧
          metaGet md "version_hash" = version_hash then
        some (blobUrl "confluence-content" name, metaGet md "image_hash")
      else checkImageScan be filename version_hash rest

/-- `check_image_in_cache`: scan the page's `images/` folder for a blob
whose metadata matches the logical file name and version hash. -/
def check_image_in_cache (be : CacheBackend)
    (space_key page_id page_title filename version_hash : String) :
    Option (String × String) :=
  match be.listBlobs (get_page_base_path space_key page_id page_title ++ "/images/") with
  | .error _ => none
  | .ok names => checkImageScan be filename version_hash names

/-! ## Ordered content parser
(`Azure Functions/confluence_content_extractor.py`, `ConfluenceContentParser`)

`_parse_html` locates structural elements (ac:image constructs, headings,
tables, lists) by regex over the markup, records each as a tuple carrying
its source offsets, sorts the tuples by start offset, and walks them in
order, flushing the cleaned plain text between consecutive elements as
`text` blocks and emitting each element as its own typed block.

The regex location and per-element field extraction are the external part
of this embedding: an `Element` carries its offsets plus the data the inner
regexes would extract (heading level and raw inner markup, table rows, list
items, the image's `ri:filename` / `ri:url` / `ac:alt` attributes — the
opportunistic width/height attributes play no role in any claim and are
omitted).  `_clean_html` (tag stripping) and the
`os.path.basename(urlparse(url).path)` step of external image naming are
taken as function parameters `clean` and `urlBase`.  Python `list.sort`
(stable, keyed by start offset) is modelled by a stable insertion sort
keyed the same way. -/

/-- A located structural element: offsets plus the regex-extracted payload. -/
inductive ElemData where
  | acImage (filename : Option String) (url : Option String) (alt : Option String)
  | heading (level : Nat) (content : String)
  | table (rows : List (List String))
  | list (ordered : Bool) (items : List String)
deriving DecidableEq

/-- One entry of the `elements` list built in `_parse_html`. -/
structure Element where
  start : Nat
  stop : Nat
  data : ElemData
deriving DecidableEq

/-- The payload of one emitted content block (the dict minus its `index`). -/
inductive BlockData where
  | text (content : String)
  | heading (level : Nat) (content : String)
  | image (source : String) (filename : String) (alt_text : String)
  | table (rows : List (List String))
  | listBlock (list_type : String) (items : List String)
deriving DecidableEq

/-- An emitted content block: payload plus the `index` field assigned as
`len(content_blocks)` at append time. -/
structure Block where
  data : BlockData
  index : Nat
deriving DecidableEq

/-- The parser's mutable state: `self.content_blocks` and
`self.current_text`. -/
structure ParseState where
  content_blocks : List Block
  current_text : String
deriving DecidableEq

/-- Python slice `s[a:b]`. -/
def pySlice (s : String) (a b : Nat) : String :=
  ⟨(s.data.drop a).take (b - a)⟩

/-- `_flush_text`: append the stripped accumulated text as a `text` block
when non-empty, and clear the accumulator. -/
def flushText (st : ParseState) : ParseState :=
  if pyStrip st.current_text ≠ "" then
    { content_blocks := st.content_blocks ++
        [⟨BlockData.text (pyStrip st.current_text), st.content_blocks.length⟩]
      current_text := "" }
  else
    { st with current_text := "" }

/-- `_process_ac_image`: an attachment reference wins over an external URL;
an external image's file name falls back to
`external_image_{len(content_blocks)}.jpg` when the URL path has no base
name; an element with neither reference emits nothing (diagnostic only). -/
def processAcImage (urlBase : String → String) (filename url alt : Option String)
    (blocks : List Block) : List Block :=
  match filename with
  | some fn =>
    blocks ++ [⟨BlockData.image "attachment" fn (alt.getD fn), blocks.length⟩]
  | none =>
    match url with
    | some u =>
      let fn := if urlBase u ≠ "" then urlBase u
        else "external_image_" ++ toString blocks.length ++ ".jpg"
      blocks ++ [⟨BlockData.image "external_url" fn (alt.getD fn), blocks.length⟩]
    | none => blocks

/-- Dispatch of the walk to `_process_ac_image` / `_process_heading` /
`_process_table` / `_process_list`, each appending at most one block whose
`index` is the block count at append time. -/
def processElemData (clean urlBase : String → String) (d : ElemData)
    (blocks : List Block) : List Block :=
  match d with
  | .acImage fn url alt => processAcImage urlBase fn url alt blocks
  | .heading level content =>
    if clean content ≠ "" then
      blocks ++ [⟨BlockData.heading level (clean content), blocks.length⟩]
    else blocks
  | .table rows =>
    if rows ≠ [] then blocks ++ [⟨BlockData.table rows, blocks.length⟩] else blocks
  | .list ordered items =>
    if items ≠ [] then
      blocks ++ [⟨BlockData.listBlock (if ordered then "ordered" else "unordered") items,
        blocks.length⟩]
    else blocks

/-- The text-before-element step of the walk: when the element starts past
the current position and the cleaned intervening markup strips to something
non-empty, append it (plus a space) to the text accumulator. -/
def gapAccum (clean : String → String) (html : String) (position startOff : Nat)
    (st : ParseState) : ParseState :=
  if startOff > position then
    if pyStrip (clean (pySlice html position startOff)) ≠ "" then
      { st with current_text :=
          st.current_text ++ clean (pySlice html position startOff) ++ " " }
    else st
  else st

/-- The remaining-text step after the last element: when the position is
before the end of the markup and the cleaned tail strips to something
non-empty, append it to the text accumulator. -/
def tailAccum (clean : String → String) (html : String) (position : Nat)
    (st : ParseState) : ParseState :=
  if position < html.length then
    if pyStrip (clean (pyDrop html position)) ≠ "" then
      { st with current_text := st.current_text ++ clean (pyDrop html position) }
    else st
  else st

/-- The walk over the sorted elements: accumulate the cleaned text between
the previous element's end and this element's start, flush it, process the
element, advance the position; after the last element accumulate the
cleaned trailing text (flushed by `parseBlocks`). -/
def parseLoop (clean urlBase : String → String) (html : String) :
    Nat → List Element → ParseState → ParseState
  | position, [], st => tailAccum clean html position st
  | position, e :: rest, st =>
    parseLoop clean urlBase html e.stop rest
      { flushText (gapAccum clean html position e.start st) with
          content_blocks := processElemData clean urlBase e.data
            (flushText (gapAccum clean html position e.start st)).content_blocks }

/-- `ConfluenceContentParser.parse`: reset state, sort the located elements
by start offset (stably), walk them, flush any remaining text, and return
the block list. -/
def parseBlocks (clean urlBase : String → String) (html : String)
    (elements : List Element) : List Block :=
  (flushText (parseLoop clean urlBase html 0
      (List.insertionSort (fun a b => a.start ≤ b.start) elements) ⟨[], ""⟩)).content_blocks

/-- The claim-level shape of an emitted block: `none` for text blocks;
external-URL image blocks are compared up to their derived file name
(which embeds the state-dependent fallback index). -/
def shapeOfBlock : BlockData → Option BlockData
  | .text _ => none
  | .image "external_url" _ _ => some (.image "external_url" "" "")
  | b => some b

/-- The block shape an element contributes, straight from its payload:
`none` when the element emits nothing. -/
def shapeOfElem (clean : String → String) : ElemData → Option BlockData
  | .acImage (some fn) _ alt => some (.image "attachment" fn (alt.getD fn))
  | .acImage none (some _) _ => some (.image "external_url" "" "")
  | .acImage none none _ => none
  | .heading level content =>
    if clean content ≠ "" then some (.heading level (clean content)) else none
  | .table rows => if rows ≠ [] then some (.table rows) else none
  | .list ordered items =>
    if items ≠ [] then
      some (.listBlock (if ordered then "ordered" else "unordered") items)
    else none

/-- Shapes of the non-text blocks of a block list, in order. -/
def nonTextShapes (blocks : List Block) : List BlockData :=
  blocks.filterMap (fun b => shapeOfBlock b.data)

/-- The index invariant: `index` fields are `0, 1, 2, …` in emission order. -/
def idxOk (blocks : List Block) : Prop :=
  blocks.map Block.index = List.range blocks.length

/-- No emitted text block has empty content. -/
def textOk (blocks : List Block) : Prop :=
  ∀ b ∈ blocks, ∀ c, b.data = BlockData.text c → c ≠ ""


instance : IsTrans Element (fun a b => a.start < b.start) :=
  ⟨fun _ _ _ h1 h2 => Nat.lt_trans h1 h2⟩
/-! ## Whole-page chunking (`Azure Functions/azure_search_indexer.py`,
`chunk_document_whole_page`)

The input document is `document.json`: metadata plus the content-block
list, each block a dict read with `.get` defaults (fields the code reads
through `.get` are `Option`s here, with the default applied where the code
applies it).  `generate_embedding` is a network call returning a vector or
`None`; it is a function parameter `embed`, and the code's `if embedding:`
truthiness test also rejects an empty vector.  `json.dumps(images_list)` is
abstracted to the structured image list itself.  Python `str.upper` is
embedded as an ASCII character map. -/

/-- Python `str.upper()` (ASCII). -/
def pyUpper (s : String) : String :=
  ⟨s.data.map Char.toUpper⟩

/-- `'#' * level`. -/
def hashMarks (n : Nat) : String :=
  ⟨List.replicate n '#'⟩

/-- One content block of `document.json` as read by the indexer. -/
inductive IxBlock where
  | heading (level : Option Nat) (content : Option String)
  | text (content : Option String)
  | list (items : Option (List String))
  | table (rows : Option (List (List String)))
  | image (blob_url : Option String) (external_url : Option String)
      (filename : Option String) (description : Option String)
      (description_type : Option String)
  | other (content : Option String)
deriving DecidableEq

/-- The metadata dict of `document.json` (fields the code reads with `[]`
are plain; fields read with `.get` are `Option`s). -/
structure IndexMetadata where
  page_id : String
  title : String
  space_key : String
  version : Nat
  url : Option String
  last_modified : Option String
  extracted_at : Option String
deriving DecidableEq

/-- The loaded `document.json`. -/
structure IndexDocument where
  metadata : IndexMetadata
  content_blocks : List IxBlock
deriving DecidableEq

/-- One entry of `images_list`. -/
structure ImageEntry where
  url : String
  name : String
  description : String
  itype : String
deriving DecidableEq

/-- The search chunk assembled by `chunk_document_whole_page`. -/
structure Chunk where
  chunk_id : String
  page_id : String
  page_title : String
  space_key : String
  version : Nat
  chunk_index : Nat
  content_type : String
  content_text : String
  content_vector : List Int
  has_image : Bool
  image_url : Option String
  image_description : Option String
  images_json : Option (List ImageEntry)
  page_url : String
  last_modified : String
deriving DecidableEq

/-- The one `content_parts` entry a block contributes. -/
def renderBlockPart : IxBlock → String
  | .heading level content => hashMarks (level.getD 2) ++ " " ++ content.getD ""
  | .text content => content.getD ""
  | .list items => pyJoin "\n" ((items.getD []).map (fun item => "• " ++ item))
  | .table rows =>
    "TABLE:\n" ++ pyJoin "\n" ((rows.getD []).map (fun row => pyJoin " | " row))
  | .image _ _ filename _ _ => "[IMAGE: " ++ filename.getD "image" ++ "]"
  | .other content => content.getD ""

/-- The `images_list` entry an image block contributes. -/
def imageEntry : IxBlock → Option ImageEntry
  | .image blob_url external_url filename description description_type =>
    some { url := if blob_url.getD "" ≠ "" then blob_url.getD "" else external_url.getD ""
           name := filename.getD "image"
           description := description.getD ""
           itype := description_type.getD "general" }
  | _ => none

/-- Is this block an image block (`has_image` flag)? -/
def isImageBlock : IxBlock → Bool
  | .image _ _ _ _ _ => true
  | _ => false

/-- The `IMAGES IN THIS PAGE` section lines, one group per image,
numbered from 1 (`enumerate(images_list, 1)`); the description line is
emitted only when non-empty. -/
def imageSectionParts : Nat → List ImageEntry → List String
  | _, [] => []
  | i, img :: rest =>
    (["### Image " ++ toString i ++ ": " ++ img.name,
      "**URL:** " ++ img.url,
      "**Type:** " ++ img.itype] ++
     (if img.description ≠ "" then ["**Description:** " ++ img.description] else []) ++
     [""]) ++ imageSectionParts (i + 1) rest

/-- The rendered whole-page text: title line, blank, one part per block,
and — when any image is present — the appended images section; all joined
with blank lines. -/
def wholePageText (doc : IndexDocument) : String :=
  if doc.content_blocks.filterMap imageEntry ≠ [] then
    pyJoin "\n\n"
      (["# " ++ doc.metadata.title, ""] ++ doc.content_blocks.map renderBlockPart ++
        ["\n\n---\n## IMAGES IN THIS PAGE:\n"] ++
        imageSectionParts 1 (doc.content_blocks.filterMap imageEntry))
  else
    pyJoin "\n\n" (["# " ++ doc.metadata.title, ""] ++ doc.content_blocks.map renderBlockPart)

/-- `chunk_document_whole_page`: empty block list gives no chunk;
otherwise embed the (8000-capped) rendered text and, when the embedding is
a non-empty vector, emit the single chunk with the rendered text capped at
32000 characters and `chunk_index = 0`. -/
def chunk_document_whole_page (embed : String → Option (List Int))
    (doc : IndexDocument) : List Chunk :=
  if doc.content_blocks = [] then []
  else
    match embed (pyTake (wholePageText doc) 8000) with
    | none => []
    | some v =>
      if v = [] then []
      else
        [{ chunk_id := doc.metadata.page_id ++ "_v" ++ toString doc.metadata.version ++ "_full"
           page_id := doc.metadata.page_id
           page_title := doc.metadata.title
           space_key := doc.metadata.space_key
           version := doc.metadata.version
           chunk_index := 0
           content_type := "full_page"
           content_text := pyTake (wholePageText doc) 32000
           content_vector := v
           has_image := doc.content_blocks.any isImageBlock
           image_url :=
             if doc.content_blocks.filterMap imageEntry ≠ [] then
               some (pyJoin ", "
                 (((doc.content_blocks.filterMap imageEntry).filter
                     (fun i => i.url ≠ "")).map (fun i => i.url)))
             else none
           image_description :=
             if doc.content_blocks.filterMap imageEntry ≠ [] then
               some (pyJoin "\n\n"
                 (((doc.content_blocks.filterMap imageEntry).filter
                     (fun i => i.description ≠ "")).map
                   (fun i => "[" ++ pyUpper i.itype ++ "] " ++ i.name ++ ": " ++ i.description)))
             else none
           images_json :=
             if doc.content_blocks.filterMap imageEntry ≠ [] then
               some (doc.content_blocks.filterMap imageEntry)
             else none
           page_url := doc.metadata.url.getD ""
           last_modified :=
             doc.metadata.last_modified.getD (doc.metadata.extracted_at.getD "") }]

/-! ### Helper lemmas about the detector -/

/-- What the detector leaves in the snapshot store, in all three branches. -/
theorem detect_store_eq (page_id : String) (cur : RawData) (st : Option Snapshot) :
    (detect_changes_optimized page_id cur st).2 =
      match st with
      | none => some (mkSnapshot page_id cur 1)
      | some p =>
        if cur.content_hash = p.content_hash then some p
        else some (mkSnapshot page_id cur (p.version_number + 1)) := by
  cases st with
  | none => rfl
  | some p =>
    by_cases h : cur.content_hash = p.content_hash <;>
      simp [detect_changes_optimized, h]

/-- The returned version number always matches the stored one after the run. -/
theorem detect_version_eq_storeVersion (page_id : String) (cur : RawData)
    (st : Option Snapshot) :
    (detect_changes_optimized page_id cur st).1.version_number =
      storeVersion (detect_changes_optimized page_id cur st).2 := by
  cases st with
  | none => rfl
  | some p =>
    by_cases h : cur.content_hash = p.content_hash <;>
      simp [detect_changes_optimized, h, storeVersion, mkSnapshot]

/-- After any run, the store holds a snapshot whose hash is the current hash
(no-change runs keep the old snapshot, whose hash is the current one). -/
theorem detect_store_hash (page_id : String) (cur : RawData) (st : Option Snapshot) :
    ∃ q : Snapshot, (detect_changes_optimized page_id cur st).2 = some q ∧
      q.content_hash = cur.content_hash := by
  cases st with
  | none => exact ⟨mkSnapshot page_id cur 1, rfl, rfl⟩
  | some p =>
    by_cases h : cur.content_hash = p.content_hash
    · exact ⟨p, by simp [detect_changes_optimized, h], h.symm⟩
    · exact ⟨mkSnapshot page_id cur (p.version_number + 1),
        by simp [detect_changes_optimized, h], rfl⟩

/-- The no-change branch of the detector, in full. -/
theorem detect_nochange_branch (page_id : String) (cur : RawData) (p : Snapshot)
    (h : cur.content_hash = p.content_hash) :
    detect_changes_optimized page_id cur (some p) =
      ({ has_changes := false
         version_number := p.version_number
         previous_version := some p.version_number
         change_summary := "No changes detected"
         needs_reprocessing := false
         current_data := none },
       some p) := by
  simp [detect_changes_optimized, h]

/-- The changed branch of the detector, in full. -/
theorem detect_changed_branch (page_id : String) (cur : RawData) (p : Snapshot)
    (h : ¬ cur.content_hash = p.content_hash) :
    detect_changes_optimized page_id cur (some p) =
      ({ has_changes := true
         version_number := p.version_number + 1
         previous_version := some p.version_number
         change_summary := changedSummary p.raw_text cur.raw_text
         needs_reprocessing := true
         current_data := some cur },
       some (mkSnapshot page_id cur (p.version_number + 1))) := by
  simp [detect_changes_optimized, h]

/-! ### Claim theorems for the detector -/

/-- C1, counterexample: a no-change run does not persist the current
snapshot.  At this concrete input the current hash matches the stored one
and the current extraction timestamp differs from the stored one; after the
run the store still holds the old snapshot with the old timestamp — the
current snapshot was not persisted and the stored timestamp did not
advance. -/
theorem detector_nochange_snapshot_not_persisted :
    (detect_changes_optimized "164168599"
        ⟨"TITLE: T\nVERSION: 2\n\nbody", "h1", "2024-02-02T00:00:00", "164168599", 2⟩
        (some ⟨"164168599", 3, "h1", "TITLE: T\nVERSION: 2\n\nbody",
          "2024-01-01T00:00:00", 2⟩)).2 =
      some ⟨"164168599", 3, "h1", "TITLE: T\nVERSION: 2\n\nbody",
        "2024-01-01T00:00:00", 2⟩ ∧
    ("2024-01-01T00:00:00" : String) ≠ "2024-02-02T00:00:00" ∧
    (detect_changes_optimized "164168599"
        ⟨"TITLE: T\nVERSION: 2\n\nbody", "h1", "2024-02-02T00:00:00", "164168599", 2⟩
        (some ⟨"164168599", 3, "h1", "TITLE: T\nVERSION: 2\n\nbody",
          "2024-01-01T00:00:00", 2⟩)).2 ≠
      some (mkSnapshot "164168599"
        ⟨"TITLE: T\nVERSION: 2\n\nbody", "h1", "2024-02-02T00:00:00", "164168599", 2⟩ 3) := by
  refine ⟨?_, by decide, by decide⟩
  simp [detect_changes_optimized]

/-- C1, amended: the detector persists the current snapshot (replacing the
stored one) on the first run and on every run whose content hash differs
from the stored one; on a no-change run it returns early and the stored
snapshot is left untouched (its timestamp is not refreshed). -/
theorem detector_snapshot_persistence (page_id : String) (cur : RawData)
    (st : Option Snapshot) :
    (detect_changes_optimized page_id cur st).2 =
      match st with
      | none => some (mkSnapshot page_id cur 1)
      | some p =>
        if cur.content_hash = p.content_hash then some p
        else some (mkSnapshot page_id cur (p.version_number + 1)) :=
  detect_store_eq page_id cur st

/-- C3: when the current hash equals the stored hash the detector returns
`has_changes = False`, the previous version number unchanged and summary
`"No changes detected"`; consequently two consecutive runs with no
intervening content change give `has_changes = False` and the same version
number on the second run. -/
theorem detector_nochange_idempotent :
    (∀ (page_id : String) (p : Snapshot) (cur : RawData),
      cur.content_hash = p.content_hash →
      (detect_changes_optimized page_id cur (some p)).1 =
        { has_changes := false
          version_number := p.version_number
          previous_version := some p.version_number
          change_summary := "No changes detected"
          needs_reprocessing := false
          current_data := none }) ∧
    (∀ (page_id : String) (st : Option Snapshot) (cur cur2 : RawData),
      cur2.content_hash = cur.content_hash →
      (detect_changes_optimized page_id cur2
          (detect_changes_optimized page_id cur st).2).1.has_changes = false ∧
      (detect_changes_optimized page_id cur2
          (detect_changes_optimized page_id cur st).2).1.version_number =
        (detect_changes_optimized page_id cur st).1.version_number) := by
  constructor
  · intro page_id p cur h
    rw [detect_nochange_branch page_id cur p h]
  · intro page_id st cur cur2 h
    obtain ⟨q, hq, hhash⟩ := detect_store_hash page_id cur st
    have h2 : cur2.content_hash = q.content_hash := by rw [hhash, h]
    rw [hq, detect_nochange_branch page_id cur2 q h2,
      detect_version_eq_storeVersion page_id cur st, hq]
    exact ⟨rfl, rfl⟩

/-- C3 witness: a concrete no-change second run. -/
theorem detector_nochange_idempotent_witness :
    (⟨"t", "h1", "e2", "1", 1⟩ : RawData).content_hash =
      (⟨"t", "h1", "e1", "1", 1⟩ : RawData).content_hash ∧
    (detect_changes_optimized "1" ⟨"t", "h1", "e2", "1", 1⟩
        (detect_changes_optimized "1" ⟨"t", "h1", "e1", "1", 1⟩ none).2).1.has_changes =
      false :=
  ⟨rfl, (detector_nochange_idempotent.2 "1" none ⟨"t", "h1", "e1", "1", 1⟩
    ⟨"t", "h1", "e2", "1", 1⟩ rfl).1⟩

/-- C4: starting from any store contents, a sequence of runs each of which
observes a content hash different from the one stored at the time (a first
run counts) raises the stored version number by exactly the number of runs
— one per changed run, never skipping, never decreasing; with an empty
store the version after the first such run is `1`. -/
theorem detector_version_monotonic (page_id : String) (st : Option Snapshot)
    (l : List RawData) (h : allChangedB page_id st l = true) :
    storeVersion (runAll page_id st l) = storeVersion st + l.length := by
  induction l generalizing st with
  | nil => simp [runAll]
  | cons cur rest ih =>
    have hsplit : storeVersion (detect_changes_optimized page_id cur st).2 =
        storeVersion st + 1 ∧
        allChangedB page_id (detect_changes_optimized page_id cur st).2 rest = true := by
      cases st with
      | none =>
        refine ⟨rfl, ?_⟩
        simpa [allChangedB] using h
      | some p =>
        have h' : (cur.content_hash = p.content_hash → False) ∧
            allChangedB page_id (detect_changes_optimized page_id cur (some p)).2 rest =
              true := by
          simpa [allChangedB, Bool.and_eq_true] using h
        refine ⟨?_, h'.2⟩
        have hne : ¬ cur.content_hash = p.content_hash := h'.1
        rw [detect_store_eq]
        simp [hne, storeVersion, mkSnapshot]
    have hrest := ih _ hsplit.2
    have hcons : runAll page_id st (cur :: rest) =
        runAll page_id (detect_changes_optimized page_id cur st).2 rest := rfl
    rw [hcons, hrest, hsplit.1]
    simp [List.length_cons]
    omega

/-- C4 witness: two changed runs from an empty store end at version 2. -/
theorem detector_version_monotonic_witness :
    allChangedB "1" none [⟨"ta", "ha", "e1", "1", 1⟩, ⟨"tb", "hb", "e2", "1", 2⟩] = true ∧
    storeVersion (runAll "1" none
      [⟨"ta", "ha", "e1", "1", 1⟩, ⟨"tb", "hb", "e2", "1", 2⟩]) = storeVersion none + 2 :=
  ⟨by decide, detector_version_monotonic "1" none
    [⟨"ta", "ha", "e1", "1", 1⟩, ⟨"tb", "hb", "e2", "1", 2⟩] (by decide)⟩

/-- C6: if the line-set diff between the stored and current normalized text
is exactly one added line `[IMAGE_ATTACHMENT: foo.png]` and nothing removed,
and the hashes differ, then the diff classifies that line as an image
addition, the change summary is the addition segment `NEW IMAGE ADDED:
foo.png`, and the version number increments by exactly 1. -/
theorem detector_image_added_summary (page_id : String) (p : Snapshot) (cur : RawData)
    (hhash : cur.content_hash ≠ p.content_hash)
    (hadd : pySetDiff (pySet (pySplit cur.raw_text "\n")) (pySplit p.raw_text "\n") =
      ["[IMAGE_ATTACHMENT: foo.png]"])
    (hrem : pySetDiff (pySet (pySplit p.raw_text "\n")) (pySplit cur.raw_text "\n") = []) :
    (categorizeChanges
        (pySetDiff (pySet (pySplit cur.raw_text "\n")) (pySplit p.raw_text "\n"))
        (pySetDiff (pySet (pySplit p.raw_text "\n")) (pySplit cur.raw_text "\n"))).images_added =
      ["[IMAGE_ATTACHMENT: foo.png]"] ∧
    (detect_changes_optimized page_id cur (some p)).1.change_summary =
      "NEW IMAGE ADDED: foo.png" ∧
    (detect_changes_optimized page_id cur (some p)).1.version_number =
      p.version_number + 1 := by
  refine ⟨?_, ?_, ?_⟩
  · rw [hadd, hrem]; decide
  · have h1 : (detect_changes_optimized page_id cur (some p)).1.change_summary =
        changedSummary p.raw_text cur.raw_text := by
      rw [detect_changed_branch page_id cur p hhash]
    rw [h1, changedSummary, hadd, hrem]
    decide
  · rw [detect_changed_branch page_id cur p hhash]

/-- C6 witness: previous text `"a"`, current text gains the image line. -/
theorem detector_image_added_summary_witness :
    (detect_changes_optimized "1"
        ⟨"a\n[IMAGE_ATTACHMENT: foo.png]", "h2", "e2", "1", 2⟩
        (some ⟨"1", 4, "h1", "a", "e1", 1⟩)).1.change_summary =
      "NEW IMAGE ADDED: foo.png" ∧
    (detect_changes_optimized "1"
        ⟨"a\n[IMAGE_ATTACHMENT: foo.png]", "h2", "e2", "1", 2⟩
        (some ⟨"1", 4, "h1", "a", "e1", 1⟩)).1.version_number = 4 + 1 :=
  ⟨(detector_image_added_summary "1" ⟨"1", 4, "h1", "a", "e1", 1⟩
      ⟨"a\n[IMAGE_ATTACHMENT: foo.png]", "h2", "e2", "1", 2⟩
      (by decide) (by decide) (by decide)).2.1,
   (detector_image_added_summary "1" ⟨"1", 4, "h1", "a", "e1", 1⟩
      ⟨"a\n[IMAGE_ATTACHMENT: foo.png]", "h2", "e2", "1", 2⟩
      (by decide) (by decide) (by decide)).2.2⟩

/-- C10: in every branch of the detector the returned result dict satisfies
`needs_reprocessing = has_changes`. -/
theorem detector_needs_reprocessing_iff_has_changes (page_id : String) (cur : RawData)
    (st : Option Snapshot) :
    (detect_changes_optimized page_id cur st).1.needs_reprocessing =
      (detect_changes_optimized page_id cur st).1.has_changes := by
  cases st with
  | none => rfl
  | some p =>
    by_cases h : cur.content_hash = p.content_hash <;>
      simp [detect_changes_optimized, h]

/-! ### Helper lemmas about the blob store -/

/-- Nothing keyed `path` survives the deletion half of `storePut`. -/
theorem find_filter_out_none (path : String) (l : BlobStore) :
    (l.filter (fun kv => !(kv.1 == path))).find? (fun kv => kv.1 == path) = none := by
  induction l with
  | nil => rfl
  | cons kv rest ih =>
    by_cases h : kv.1 == path
    · simp [List.filter_cons, h, ih]
    · simp only [List.filter_cons, h, Bool.not_false, if_pos]
      rw [List.find?_cons_of_neg _ (by simp [h])]
      exact ih

/-- Reading back the path just written returns the written blob. -/
theorem storeGet_storePut_self (st : BlobStore) (path : String) (b : Blob) :
    storeGet (storePut st path b) path = some b := by
  unfold storeGet storePut
  rw [List.find?_append, find_filter_out_none]
  simp [List.find?]

/-- The skip branch of `upload_image_deduplicated`: a blob already sits at
the derived path. -/
theorem upload_image_dedup_hit (md5 : List Nat → String) (st : BlobStore)
    (space_key page_id page_title : String) (content : List Nat) (f : String) (b : Blob)
    (hb : storeGet st (image_blob_path space_key page_id page_title (md5 content) f) =
      some b) :
    upload_image_deduplicated md5 st space_key page_id page_title content f =
      { uploaded := false
        blob_url := blobUrl "confluence-content"
          (image_blob_path space_key page_id page_title (md5 content) f)
        image_hash := md5 content
        store := st } := by
  simp only [upload_image_deduplicated]
  rw [hb]

/-- The upload branch of `upload_image_deduplicated`: no blob at the
derived path yet. -/
theorem upload_image_dedup_miss (md5 : List Nat → String) (st : BlobStore)
    (space_key page_id page_title : String) (content : List Nat) (f : String)
    (hb : storeGet st (image_blob_path space_key page_id page_title (md5 content) f) =
      none) :
    upload_image_deduplicated md5 st space_key page_id page_title content f =
      { uploaded := true
        blob_url := blobUrl "confluence-content"
          (image_blob_path space_key page_id page_title (md5 content) f)
        image_hash := md5 content
        store := storePut st (image_blob_path space_key page_id page_title (md5 content) f)
          ⟨content, [("image_hash", md5 content), ("original_filename", f)]⟩ } := by
  simp only [upload_image_deduplicated]
  rw [hb]

/-- After `upload_image_deduplicated`, some blob exists at the derived
content-addressed path (whether or not this call uploaded). -/
theorem upload_image_dedup_exists (md5 : List Nat → String) (st : BlobStore)
    (space_key page_id page_title : String) (content : List Nat) (f : String) :
    ∃ b, storeGet
      (upload_image_deduplicated md5 st space_key page_id page_title content f).store
      (image_blob_path space_key page_id page_title (md5 content) f) = some b := by
  cases hs : storeGet st (image_blob_path space_key page_id page_title (md5 content) f) with
  | some b =>
    exact ⟨b, by
      rw [upload_image_dedup_hit md5 st space_key page_id page_title content f b hs]
      exact hs⟩
  | none =>
    exact ⟨⟨content, [("image_hash", md5 content), ("original_filename", f)]⟩, by
      rw [upload_image_dedup_miss md5 st space_key page_id page_title content f hs]
      exact storeGet_storePut_self st _ _⟩

/-- The returned image hash is always the digest of the bytes, and the
returned URL always points at the derived path. -/
theorem upload_image_dedup_hash_url (md5 : List Nat → String) (st : BlobStore)
    (space_key page_id page_title : String) (content : List Nat) (f : String) :
    (upload_image_deduplicated md5 st space_key page_id page_title content f).image_hash =
      md5 content ∧
    (upload_image_deduplicated md5 st space_key page_id page_title content f).blob_url =
      blobUrl "confluence-content"
        (image_blob_path space_key page_id page_title (md5 content) f) := by
  cases hs : storeGet st (image_blob_path space_key page_id page_title (md5 content) f) with
  | some b =>
    rw [upload_image_dedup_hit md5 st space_key page_id page_title content f b hs]
    exact ⟨rfl, rfl⟩
  | none =>
    rw [upload_image_dedup_miss md5 st space_key page_id page_title content f hs]
    exact ⟨rfl, rfl⟩

/-! ### Claim theorems for the storage manager -/

/-- C2, counterexample: the content-addressed storage key embeds the
sanitized original file name, so two byte-identical images under different
names derive different storage keys, and the second upload uploads again
instead of finding the first blob and skipping. -/
theorem image_dedup_key_depends_on_filename :
    dedup_storage_key ((fun _ => "d41d8cd98f00b204") ([1, 2, 3] : List Nat)) "foo.png" ≠
      dedup_storage_key ((fun _ => "d41d8cd98f00b204") ([1, 2, 3] : List Nat)) "bar.png" ∧
    (upload_image_deduplicated (fun _ => "d41d8cd98f00b204")
        (upload_image_deduplicated (fun _ => "d41d8cd98f00b204") []
          "CIPPMOPF" "164168599" "Page" [1, 2, 3] "foo.png").store
        "CIPPMOPF" "164168599" "Page" [1, 2, 3] "bar.png").uploaded = true := by
  decide

/-- C2, amended: byte-identical images always receive the same
`content_hash`; the storage key additionally embeds the sanitized original
name, so when the two names also sanitize to the same stem and carry the
same suffix the keys coincide and the second upload is skipped, reusing the
first blob's URL. -/
theorem image_dedup_same_bytes (md5 : List Nat → String) (st : BlobStore)
    (space_key page_id page_title : String) (content : List Nat) (f1 f2 : String)
    (hstem : sanitize_name (pyStem f1) = sanitize_name (pyStem f2))
    (hsuf : pySuffix f1 = pySuffix f2) :
    (upload_image_deduplicated md5 st space_key page_id page_title content f1).image_hash =
      (upload_image_deduplicated md5
        (upload_image_deduplicated md5 st space_key page_id page_title content f1).store
        space_key page_id page_title content f2).image_hash ∧
    (upload_image_deduplicated md5
        (upload_image_deduplicated md5 st space_key page_id page_title content f1).store
        space_key page_id page_title content f2).uploaded = false ∧
    (upload_image_deduplicated md5
        (upload_image_deduplicated md5 st space_key page_id page_title content f1).store
        space_key page_id page_title content f2).blob_url =
      (upload_image_deduplicated md5 st space_key page_id page_title content f1).blob_url := by
  have hkey : dedup_storage_key (md5 content) f1 = dedup_storage_key (md5 content) f2 := by
    unfold dedup_storage_key
    rw [hstem, hsuf]
  have hpath : image_blob_path space_key page_id page_title (md5 content) f1 =
      image_blob_path space_key page_id page_title (md5 content) f2 := by
    unfold image_blob_path
    rw [hkey]
  obtain ⟨b, hb⟩ :=
    upload_image_dedup_exists md5 st space_key page_id page_title content f1
  have hb2 : storeGet
      (upload_image_deduplicated md5 st space_key page_id page_title content f1).store
      (image_blob_path space_key page_id page_title (md5 content) f2) = some b := by
    rw [← hpath]
    exact hb
  have h2 := upload_image_dedup_hit md5
    (upload_image_deduplicated md5 st space_key page_id page_title content f1).store
    space_key page_id page_title content f2 b hb2
  have h1 := upload_image_dedup_hash_url md5 st space_key page_id page_title content f1
  rw [h2, h1.1, h1.2, hpath]
  exact ⟨rfl, rfl, rfl⟩

/-- C2 amended witness: same bytes under the same sanitized name and
suffix; the second upload is skipped. -/
theorem image_dedup_same_bytes_witness :
    sanitize_name (pyStem "chart v1.png") = sanitize_name (pyStem "chart_v1.png") ∧
    (upload_image_deduplicated (fun _ => "9e107d9d972f0245")
        (upload_image_deduplicated (fun _ => "9e107d9d972f0245") []
          "CIPPMOPF" "164168599" "Page" [7, 7] "chart v1.png").store
        "CIPPMOPF" "164168599" "Page" [7, 7] "chart_v1.png").uploaded = false :=
  ⟨by decide,
   (image_dedup_same_bytes (fun _ => "9e107d9d972f0245") [] "CIPPMOPF" "164168599"
      "Page" [7, 7] "chart v1.png" "chart_v1.png" (by decide) (by decide)).2.1⟩

/-- C7: when a blob already exists at the target path with the same
recorded `content_md5` metadata the call skips (returns `uploaded = false`,
reason `SKIPPED (unchanged)`, store untouched — so the stored hash metadata
is unchanged); when the hashes differ or no blob exists it uploads,
returning `uploaded = true` and recording the new content's hash in the
blob's metadata. -/
theorem upload_content_if_changed_spec (md5 : List Nat → String) (st : BlobStore)
    (container : String) (content : List Nat) (blob_path : String) :
    (∀ b, storeGet st blob_path = some b →
      metaGet b.metadata "content_md5" = md5 content →
      upload_content_if_changed md5 st container content blob_path =
        { uploaded := false
          blob_url := blobUrl container blob_path
          reason := "SKIPPED (unchanged)"
          store := st }) ∧
    ((storeGet st blob_path = none ∨
      ∃ b, storeGet st blob_path = some b ∧ metaGet b.metadata "content_md5" ≠ md5 content) →
      (upload_content_if_changed md5 st container content blob_path).uploaded = true ∧
      (upload_content_if_changed md5 st container content blob_path).reason = "UPLOADED" ∧
      storeGet (upload_content_if_changed md5 st container content blob_path).store blob_path =
        some ⟨content, [("content_md5", md5 content)]⟩) := by
  constructor
  · intro b hb hmeta
    unfold upload_content_if_changed
    rw [hb]
    simp [hmeta]
  · intro h
    have hres : upload_content_if_changed md5 st container content blob_path =
        { uploaded := true
          blob_url := blobUrl container blob_path
          reason := "UPLOADED"
          store := storePut st blob_path ⟨content, [("content_md5", md5 content)]⟩ } := by
      rcases h with hnone | ⟨b, hb, hne⟩
      · unfold upload_content_if_changed
        rw [hnone]
      · unfold upload_content_if_changed
        rw [hb]
        simp [hne]
    rw [hres]
    exact ⟨rfl, rfl, storeGet_storePut_self st blob_path _⟩

/-- C7 witness: re-uploading byte-identical content to the same path is
skipped. -/
theorem upload_content_if_changed_witness :
    storeGet [("a/v1.json", ⟨[1, 2], [("content_md5", "900150983cd24fb0")]⟩)] "a/v1.json" =
      some ⟨[1, 2], [("content_md5", "900150983cd24fb0")]⟩ ∧
    upload_content_if_changed (fun _ => "900150983cd24fb0")
        [("a/v1.json", ⟨[1, 2], [("content_md5", "900150983cd24fb0")]⟩)]
        "confluence-content" [1, 2] "a/v1.json" =
      { uploaded := false
        blob_url := blobUrl "confluence-content" "a/v1.json"
        reason := "SKIPPED (unchanged)"
        store := [("a/v1.json", ⟨[1, 2], [("content_md5", "900150983cd24fb0")]⟩)] } :=
  ⟨by decide,
   (upload_content_if_changed_spec (fun _ => "900150983cd24fb0")
      [("a/v1.json", ⟨[1, 2], [("content_md5", "900150983cd24fb0")]⟩)]
      "confluence-content" [1, 2] "a/v1.json").1
     ⟨[1, 2], [("content_md5", "900150983cd24fb0")]⟩ (by decide) (by decide)⟩

/-- C8: every cache lookup treats a failing backing-store read as a miss:
when the listing, the existence probe, the download, or a metadata fetch
raises, the lookup returns `None` instead of propagating the error, so the
expensive work is redone rather than skipped. -/
theorem cache_read_failure_is_miss (be : CacheBackend)
    (space_key page_id page_title image_hash filename version_hash : String)
    (e : String) :
    (be.listBlobs (get_page_base_path space_key page_id page_title ++ "/images/" ++
        pyTake image_hash 8 ++ "_") = .error e →
      get_image_by_hash be space_key page_id page_title image_hash = none) ∧
    (be.existsAt (get_page_base_path space_key page_id page_title ++
        "/descriptions/" ++ image_hash ++ ".json") = .error e →
      get_cached_description be space_key page_id page_title image_hash = none) ∧
    (be.downloadAt (get_page_base_path space_key page_id page_title ++
        "/descriptions/" ++ image_hash ++ ".json") = .error e →
      get_cached_description be space_key page_id page_title image_hash = none) ∧
    (be.listBlobs (get_page_base_path space_key page_id page_title ++ "/images/") =
        .error e →
      check_image_in_cache be space_key page_id page_title filename version_hash = none) ∧
    (∀ name rest,
      be.listBlobs (get_page_base_path space_key page_id page_title ++ "/images/") =
        .ok (name :: rest) →
      be.getMetadataAt name = .error e →
      check_image_in_cache be space_key page_id page_title filename version_hash = none) := by
  refine ⟨?_, ?_, ?_, ?_, ?_⟩
  · intro h
    unfold get_image_by_hash
    rw [h]
  · intro h
    unfold get_cached_description
    rw [h]
  · intro h
    unfold get_cached_description
    cases hex : be.existsAt (get_page_base_path space_key page_id page_title ++
        "/descriptions/" ++ image_hash ++ ".json") with
    | error _ => rfl
    | ok b =>
      cases b with
      | false => rfl
      | true => rw [h]
  · intro h
    unfold check_image_in_cache
    rw [h]
  · intro name rest hlist hmeta
    unfold check_image_in_cache
    rw [hlist]
    unfold checkImageScan
    rw [hmeta]

/-- C8 witness: a backend whose every read raises; all three lookups miss. -/
theorem cache_read_failure_is_miss_witness :
    get_image_by_hash
      ⟨fun _ => .error "boom", fun _ => .error "boom", fun _ => .error "boom",
       fun _ => .error "boom", fun _ => .error "boom"⟩
      "CIPPMOPF" "164168599" "Page" "9e107d9d972f0245" = none ∧
    get_cached_description
      ⟨fun _ => .error "boom", fun _ => .error "boom", fun _ => .error "boom",
       fun _ => .error "boom", fun _ => .error "boom"⟩
      "CIPPMOPF" "164168599" "Page" "9e107d9d972f0245" = none ∧
    check_image_in_cache
      ⟨fun _ => .error "boom", fun _ => .error "boom", fun _ => .error "boom",
       fun _ => .error "boom", fun _ => .error "boom"⟩
      "CIPPMOPF" "164168599" "Page" "diagram.png" "v1hash" = none :=
  ⟨(cache_read_failure_is_miss
      ⟨fun _ => .error "boom", fun _ => .error "boom", fun _ => .error "boom",
       fun _ => .error "boom", fun _ => .error "boom"⟩
      "CIPPMOPF" "164168599" "Page" "9e107d9d972f0245" "diagram.png" "v1hash" "boom").1 rfl,
   (cache_read_failure_is_miss
      ⟨fun _ => .error "boom", fun _ => .error "boom", fun _ => .error "boom",
       fun _ => .error "boom", fun _ => .error "boom"⟩
      "CIPPMOPF" "164168599" "Page" "9e107d9d972f0245" "diagram.png" "v1hash" "boom").2.1 rfl,
   (cache_read_failure_is_miss
      ⟨fun _ => .error "boom", fun _ => .error "boom", fun _ => .error "boom",
       fun _ => .error "boom", fun _ => .error "boom"⟩
      "CIPPMOPF" "164168599" "Page" "9e107d9d972f0245" "diagram.png" "v1hash" "boom").2.2.2.1 rfl⟩

/-! ### Helper lemmas about the parser -/

theorem shapeOfBlock_text (c : String) : shapeOfBlock (BlockData.text c) = none := rfl

theorem shapeOfBlock_image_attachment (f a : String) :
    shapeOfBlock (BlockData.image "attachment" f a) =
      some (BlockData.image "attachment" f a) := rfl

theorem shapeOfBlock_image_external (f a : String) :
    shapeOfBlock (BlockData.image "external_url" f a) =
      some (BlockData.image "external_url" "" "") := rfl

theorem shapeOfBlock_heading (l : Nat) (c : String) :
    shapeOfBlock (BlockData.heading l c) = some (BlockData.heading l c) := rfl

theorem shapeOfBlock_table (rows : List (List String)) :
    shapeOfBlock (BlockData.table rows) = some (BlockData.table rows) := rfl

theorem shapeOfBlock_listBlock (t : String) (items : List String) :
    shapeOfBlock (BlockData.listBlock t items) = some (BlockData.listBlock t items) := rfl

/-- Appending a block with `index := length` preserves the index invariant. -/
theorem idxOk_append (blocks : List Block) (d : BlockData) (h : idxOk blocks) :
    idxOk (blocks ++ [⟨d, blocks.length⟩]) := by
  unfold idxOk at h ⊢
  simp [List.map_append, h, List.range_succ]

/-- Appending a non-text block preserves the text invariant. -/
theorem textOk_append (blocks : List Block) (d : BlockData) (i : Nat)
    (h : textOk blocks) (hd : ∀ c, d ≠ BlockData.text c) :
    textOk (blocks ++ [⟨d, i⟩]) := by
  intro b hb c hbc
  rcases List.mem_append.mp hb with hmem | hmem
  · exact h b hmem c hbc
  · have hb' : b = ⟨d, i⟩ := by simpa using hmem
    subst hb'
    exact absurd hbc (hd c)

/-- Neither of the two accumulator steps touches the block list. -/
theorem gapAccum_blocks (clean : String → String) (html : String)
    (position startOff : Nat) (st : ParseState) :
    (gapAccum clean html position startOff st).content_blocks = st.content_blocks := by
  unfold gapAccum
  split
  · split <;> rfl
  · rfl

theorem tailAccum_blocks (clean : String → String) (html : String) (position : Nat)
    (st : ParseState) :
    (tailAccum clean html position st).content_blocks = st.content_blocks := by
  unfold tailAccum
  split
  · split <;> rfl
  · rfl

/-- `_flush_text` adds no non-text shape. -/
theorem flushText_shape (st : ParseState) :
    nonTextShapes (flushText st).content_blocks = nonTextShapes st.content_blocks := by
  unfold flushText nonTextShapes
  by_cases h : pyStrip st.current_text ≠ ""
  · simp [h, List.filterMap_append, shapeOfBlock_text]
  · simp [h]

/-- `_flush_text` preserves the index invariant. -/
theorem flushText_idx (st : ParseState) (h : idxOk st.content_blocks) :
    idxOk (flushText st).content_blocks := by
  unfold flushText
  by_cases hc : pyStrip st.current_text ≠ ""
  · simpa [hc] using idxOk_append st.content_blocks (BlockData.text (pyStrip st.current_text)) h
  · simpa [hc] using h

/-- `_flush_text` emits no empty text block. -/
theorem flushText_textOk (st : ParseState) (h : textOk st.content_blocks) :
    textOk (flushText st).content_blocks := by
  unfold flushText
  by_cases hc : pyStrip st.current_text ≠ ""
  · rw [if_pos hc]
    intro b hb c hbc
    rcases List.mem_append.mp hb with hmem | hmem
    · exact h b hmem c hbc
    · have hb' : b = ⟨BlockData.text (pyStrip st.current_text), st.content_blocks.length⟩ := by
        simpa using hmem
      subst hb'
      have hc' : pyStrip st.current_text = c := by
        simpa using hbc
      rw [← hc']
      exact hc
  · simpa [hc] using h

/-- Processing one element appends exactly its shape to the non-text
shapes. -/
theorem processElemData_shape (clean urlBase : String → String) (d : ElemData)
    (blocks : List Block) :
    nonTextShapes (processElemData clean urlBase d blocks) =
      nonTextShapes blocks ++ (shapeOfElem clean d).toList := by
  cases d with
  | acImage fn url alt =>
    cases fn with
    | some f =>
      simp [processElemData, processAcImage, nonTextShapes, List.filterMap_append,
        shapeOfBlock_image_attachment, shapeOfElem]
    | none =>
      cases url with
      | some u =>
        simp [processElemData, processAcImage, nonTextShapes, List.filterMap_append,
          shapeOfBlock_image_external, shapeOfElem]
      | none =>
        simp [processElemData, processAcImage, nonTextShapes, shapeOfElem]
  | heading lvl content =>
    by_cases h : clean content ≠ "" <;>
      simp [processElemData, nonTextShapes, List.filterMap_append, shapeOfBlock_heading,
        shapeOfElem, h]
  | table rows =>
    by_cases h : rows ≠ [] <;>
      simp [processElemData, nonTextShapes, List.filterMap_append, shapeOfBlock_table,
        shapeOfElem, h]
  | list ordered items =>
    by_cases h : items ≠ [] <;>
      simp [processElemData, nonTextShapes, List.filterMap_append, shapeOfBlock_listBlock,
        shapeOfElem, h]

/-- Processing one element preserves the index invariant. -/
theorem processElemData_idx (clean urlBase : String → String) (d : ElemData)
    (blocks : List Block) (h : idxOk blocks) :
    idxOk (processElemData clean urlBase d blocks) := by
  cases d with
  | acImage fn url alt =>
    cases fn with
    | some f => exact idxOk_append blocks _ h
    | none =>
      cases url with
      | some u => exact idxOk_append blocks _ h
      | none => exact h
  | heading lvl content =>
    by_cases hc : clean content ≠ ""
    · simpa [processElemData, hc] using idxOk_append blocks (BlockData.heading lvl (clean content)) h
    · simpa [processElemData, hc] using h
  | table rows =>
    by_cases hc : rows ≠ []
    · simpa [processElemData, hc] using idxOk_append blocks (BlockData.table rows) h
    · simpa [processElemData, hc] using h
  | list ordered items =>
    by_cases hc : items ≠ []
    · simpa [processElemData, hc] using
        idxOk_append blocks (BlockData.listBlock (if ordered then "ordered" else "unordered") items) h
    · simpa [processElemData, hc] using h

/-- Processing one element emits no text block. -/
theorem processElemData_textOk (clean urlBase : String → String) (d : ElemData)
    (blocks : List Block) (h : textOk blocks) :
    textOk (processElemData clean urlBase d blocks) := by
  cases d with
  | acImage fn url alt =>
    cases fn with
    | some f => exact textOk_append blocks _ _ h (fun c => by simp)
    | none =>
      cases url with
      | some u => exact textOk_append blocks _ _ h (fun c => by simp)
      | none => exact h
  | heading lvl content =>
    by_cases hc : clean content ≠ ""
    · simpa [processElemData, hc] using
        textOk_append blocks (BlockData.heading lvl (clean content)) blocks.length h
          (fun c => by simp)
    · simpa [processElemData, hc] using h
  | table rows =>
    by_cases hc : rows ≠ []
    · simpa [processElemData, hc] using
        textOk_append blocks (BlockData.table rows) blocks.length h (fun c => by simp)
    · simpa [processElemData, hc] using h
  | list ordered items =>
    by_cases hc : items ≠ []
    · simpa [processElemData, hc] using
        textOk_append blocks (BlockData.listBlock (if ordered then "ordered" else "unordered") items)
          blocks.length h (fun c => by simp)
    · simpa [processElemData, hc] using h

/-- The walk appends exactly the element shapes, in walk order. -/
theorem parseLoop_shape (clean urlBase : String → String) (html : String)
    (els : List Element) :
    ∀ (position : Nat) (st : ParseState),
    nonTextShapes (parseLoop clean urlBase html position els st).content_blocks =
      nonTextShapes st.content_blocks ++
        els.filterMap (fun e => shapeOfElem clean e.data) := by
  induction els with
  | nil =>
    intro position st
    show nonTextShapes (tailAccum clean html position st).content_blocks = _
    rw [tailAccum_blocks]
    simp
  | cons e rest ih =>
    intro position st
    show nonTextShapes (parseLoop clean urlBase html e.stop rest _).content_blocks = _
    rw [ih]
    rw [processElemData_shape]
    rw [flushText_shape, gapAccum_blocks]
    rw [List.filterMap_cons]
    cases h : shapeOfElem clean e.data <;> simp [h]

/-- The walk preserves the index invariant. -/
theorem parseLoop_idx (clean urlBase : String → String) (html : String)
    (els : List Element) :
    ∀ (position : Nat) (st : ParseState), idxOk st.content_blocks →
    idxOk (parseLoop clean urlBase html position els st).content_blocks := by
  induction els with
  | nil =>
    intro position st h
    show idxOk (tailAccum clean html position st).content_blocks
    rw [tailAccum_blocks]
    exact h
  | cons e rest ih =>
    intro position st h
    refine ih e.stop _ ?_
    refine processElemData_idx clean urlBase e.data _ ?_
    have := flushText_idx (gapAccum clean html position e.start st) ?_
    · exact this
    · rw [gapAccum_blocks]
      exact h

/-- The walk preserves the no-empty-text invariant. -/
theorem parseLoop_textOk (clean urlBase : String → String) (html : String)
    (els : List Element) :
    ∀ (position : Nat) (st : ParseState), textOk st.content_blocks →
    textOk (parseLoop clean urlBase html position els st).content_blocks := by
  induction els with
  | nil =>
    intro position st h
    show textOk (tailAccum clean html position st).content_blocks
    rw [tailAccum_blocks]
    exact h
  | cons e rest ih =>
    intro position st h
    refine ih e.stop _ ?_
    refine processElemData_textOk clean urlBase e.data _ ?_
    have := flushText_textOk (gapAccum clean html position e.start st) ?_
    · exact this
    · rw [gapAccum_blocks]
      exact h

/-- Elements already in strictly increasing start order are left unchanged
by the stable sort. -/
theorem sortElements_eq (elements : List Element)
    (h : List.Chain' (fun a b => a.start < b.start) elements) :
    List.insertionSort (fun a b => a.start ≤ b.start) elements = elements := by
  refine List.Sorted.insertionSort_eq ?_
  have hp : List.Pairwise (fun a b : Element => a.start < b.start) elements :=
    List.chain'_iff_pairwise.mp h
  exact hp.imp (fun hab => Nat.le_of_lt hab)

/-! ### Claim theorem for the parser -/

/-- C5: for structural elements located at strictly increasing source
offsets, the parser emits the corresponding non-text blocks in exactly that
relative order (sorted by start offset, never grouped by type): the
non-text shapes of the output are the element shapes in input order.  The
`index` fields of all emitted blocks are `0, 1, 2, …` in emission order
(strictly increasing from 0), and no emitted text block is empty — in
particular, between adjacent elements whose cleaned intervening text is
empty, no empty text block is emitted (the flush is a no-op there). -/
theorem parser_order_invariant (clean urlBase : String → String) (html : String)
    (elements : List Element)
    (hsorted : List.Chain' (fun a b => a.start < b.start) elements) :
    nonTextShapes (parseBlocks clean urlBase html elements) =
      elements.filterMap (fun e => shapeOfElem clean e.data) ∧
    (parseBlocks clean urlBase html elements).map Block.index =
      List.range (parseBlocks clean urlBase html elements).length ∧
    (∀ b ∈ parseBlocks clean urlBase html elements, ∀ c,
      b.data = BlockData.text c → c ≠ "") := by
  have hs := sortElements_eq elements hsorted
  unfold parseBlocks
  rw [hs]
  refine ⟨?_, ?_, ?_⟩
  · rw [flushText_shape, parseLoop_shape]
    simp [nonTextShapes]
  · show idxOk _
    exact flushText_idx _
      (parseLoop_idx clean urlBase html elements 0 ⟨[], ""⟩ rfl)
  · show textOk _
    refine flushText_textOk _
      (parseLoop_textOk clean urlBase html elements 0 ⟨[], ""⟩ ?_)
    intro b hb
    simp at hb

/-- C5 witness: three elements (heading, attachment image, table) at
offsets 0 < 12 < 31. -/
theorem parser_order_invariant_witness :
    List.Chain' (fun a b => a.start < b.start)
      ([⟨0, 10, ElemData.heading 1 "Intro"⟩,
        ⟨12, 30, ElemData.acImage (some "foo.png") none none⟩,
        ⟨31, 60, ElemData.table [["a", "b"]]⟩] : List Element) ∧
    nonTextShapes (parseBlocks pyStrip (fun _ => "") "0123456789ab3456789012345678900123"
        [⟨0, 10, ElemData.heading 1 "Intro"⟩,
         ⟨12, 30, ElemData.acImage (some "foo.png") none none⟩,
         ⟨31, 60, ElemData.table [["a", "b"]]⟩]) =
      ([⟨0, 10, ElemData.heading 1 "Intro"⟩,
        ⟨12, 30, ElemData.acImage (some "foo.png") none none⟩,
        ⟨31, 60, ElemData.table [["a", "b"]]⟩] : List Element).filterMap
        (fun e => shapeOfElem pyStrip e.data) :=
  ⟨by simp [List.chain'_cons],
   (parser_order_invariant pyStrip (fun _ => "") "0123456789ab3456789012345678900123"
      [⟨0, 10, ElemData.heading 1 "Intro"⟩,
       ⟨12, 30, ElemData.acImage (some "foo.png") none none⟩,
       ⟨31, 60, ElemData.table [["a", "b"]]⟩] (by simp [List.chain'_cons])).1⟩

/-- Length of a Python slice `s[:n]`. -/
theorem pyTake_length (s : String) (n : Nat) :
    (pyTake s n).length = min n s.length := by
  show (s.data.take n).length = min n s.data.length
  exact List.length_take n s.data

/-- C9, counterexample: a document with a non-empty block list produces
zero chunks — not exactly one — when the embedding call fails (returns
`None`). -/
theorem whole_page_chunk_requires_embedding :
    ([IxBlock.text (some "hello")] : List IxBlock) ≠ [] ∧
    chunk_document_whole_page (fun _ => none)
      ⟨⟨"164168599", "Page", "CIPPMOPF", 3, none, none, none⟩,
       [IxBlock.text (some "hello")]⟩ = [] := by
  refine ⟨by decide, ?_⟩
  rfl

/-- C9, amended: for a document with a non-empty block list, when the
embedding call succeeds with a (non-empty) vector the strategy produces
exactly one chunk; its `content_text` is the rendered page text truncated
at 32000 characters, so when the rendered text exceeds that cap the chunk
text's length is exactly the cap (the tail is cut, no error path exists). -/
theorem whole_page_single_chunk (embed : String → Option (List Int))
    (doc : IndexDocument) (v : List Int)
    (hblocks : doc.content_blocks ≠ [])
    (hembed : embed (pyTake (wholePageText doc) 8000) = some v)
    (hv : v ≠ []) :
    (chunk_document_whole_page embed doc).length = 1 ∧
    ∀ c ∈ chunk_document_whole_page embed doc,
      c.content_text = pyTake (wholePageText doc) 32000 ∧
      (32000 < (wholePageText doc).length → c.content_text.length = 32000) := by
  have hres : chunk_document_whole_page embed doc =
      [{ chunk_id := doc.metadata.page_id ++ "_v" ++ toString doc.metadata.version ++ "_full"
         page_id := doc.metadata.page_id
         page_title := doc.metadata.title
         space_key := doc.metadata.space_key
         version := doc.metadata.version
         chunk_index := 0
         content_type := "full_page"
         content_text := pyTake (wholePageText doc) 32000
         content_vector := v
         has_image := doc.content_blocks.any isImageBlock
         image_url :=
           if doc.content_blocks.filterMap imageEntry ≠ [] then
             some (pyJoin ", "
               (((doc.content_blocks.filterMap imageEntry).filter
                   (fun i => i.url ≠ "")).map (fun i => i.url)))
           else none
         image_description :=
           if doc.content_blocks.filterMap imageEntry ≠ [] then
             some (pyJoin "\n\n"
               (((doc.content_blocks.filterMap imageEntry).filter
                   (fun i => i.description ≠ "")).map
                 (fun i => "[" ++ pyUpper i.itype ++ "] " ++ i.name ++ ": " ++ i.description)))
           else none
         images_json :=
           if doc.content_blocks.filterMap imageEntry ≠ [] then
             some (doc.content_blocks.filterMap imageEntry)
           else none
         page_url := doc.metadata.url.getD ""
         last_modified :=
           doc.metadata.last_modified.getD (doc.metadata.extracted_at.getD "") }] := by
    unfold chunk_document_whole_page
    rw [if_neg hblocks, hembed]
    exact if_neg hv
  refine ⟨by rw [hres]; rfl, ?_⟩
  intro c hc
  rw [hres] at hc
  have hc' : c.content_text = pyTake (wholePageText doc) 32000 := by
    have := List.mem_singleton.mp hc
    rw [this]
  refine ⟨hc', ?_⟩
  intro hlong
  rw [hc', pyTake_length]
  exact Nat.min_eq_left (Nat.le_of_lt hlong)

/-- C9 amended witness: a one-block document with a successful embedding
produces exactly one chunk. -/
theorem whole_page_single_chunk_witness :
    (⟨⟨"164168599", "Page", "CIPPMOPF", 3, none, none, none⟩,
      [IxBlock.text (some "hello")]⟩ : IndexDocument).content_blocks ≠ [] ∧
    (chunk_document_whole_page (fun _ => some [1])
      ⟨⟨"164168599", "Page", "CIPPMOPF", 3, none, none, none⟩,
       [IxBlock.text (some "hello")]⟩).length = 1 :=
  ⟨by decide,
   (whole_page_single_chunk (fun _ => some [1])
      ⟨⟨"164168599", "Page", "CIPPMOPF", 3, none, none, none⟩,
       [IxBlock.text (some "hello")]⟩ [1] (by decide) rfl (by decide)).1⟩
